import Mathlib

/-!
Verification of the scraping pipeline in `app.py` (Scraper_Agent).

The program is embedded shallowly:

* strings are `List Char`; Python's `str.strip`, `str.splitlines`,
  `str.split("  ")` and `' '.join` are modelled as executable Lean functions;
* the HTML document, produced by the external parser, is modelled as a tree
  of element and text nodes; `soup.get_text()`, tag decomposition and
  `find_all('a', href=True)` are recursive functions on that tree;
* the two network calls (`requests.get` and the Gemini generation call) are
  external; their outcomes are parameters of the embedded functions, and the
  requests issued / messages shown are returned explicitly as data.
-/

namespace Scraper

/-- Strings of the embedded program are lists of characters. -/
abbrev Str := List Char

/-- Coercion from Lean string literals to the embedded string type. -/
def str (s : String) : Str := s.data

/-- Characters stripped by Python's `str.strip()`: the whitespace
characters, by code point (space, tab, the line breaks, the separator
controls, NBSP, and the unicode line/paragraph separators). -/
def isSpaceChar (c : Char) : Bool :=
  c.toNat = 32 || c.toNat = 9 || c.toNat = 10 || c.toNat = 13 ||
  c.toNat = 11 || c.toNat = 12 || c.toNat = 28 || c.toNat = 29 ||
  c.toNat = 30 || c.toNat = 31 || c.toNat = 133 || c.toNat = 160 ||
  c.toNat = 8232 || c.toNat = 8233

/-- Line boundaries recognised by Python's `str.splitlines()`, by code
point. -/
def isLineBreak (c : Char) : Bool :=
  c.toNat = 10 || c.toNat = 13 || c.toNat = 11 || c.toNat = 12 ||
  c.toNat = 28 || c.toNat = 29 || c.toNat = 30 || c.toNat = 133 ||
  c.toNat = 8232 || c.toNat = 8233

/-- Python `s.strip()`: drop whitespace from both ends. -/
def pyStrip (s : Str) : Str :=
  ((s.dropWhile isSpaceChar).reverse.dropWhile isSpaceChar).reverse

/-- Worker for `splitlines`: `acc` holds the current line, reversed. -/
def splitlinesGo : Str → Str → List Str
  | [], [] => []
  | [], acc => [acc.reverse]
  | '\r' :: '\n' :: rest, acc => acc.reverse :: splitlinesGo rest []
  | c :: rest, acc =>
    if isLineBreak c then acc.reverse :: splitlinesGo rest []
    else splitlinesGo rest (c :: acc)

/-- Python `s.splitlines()`: split at line boundaries, `"\r\n"` counting as
one boundary, with no trailing empty line. -/
def splitlines (s : Str) : List Str := splitlinesGo s []

/-- Python `s.split("  ")`: split at each occurrence of two consecutive
spaces, scanning left to right. -/
def splitDD : Str → List Str
  | [] => [[]]
  | ' ' :: ' ' :: rest => [] :: splitDD rest
  | c :: rest =>
    match splitDD rest with
    | [] => [[c]]
    | h :: t => (c :: h) :: t

/-- Python `sep.join(ps)`: concatenate with `sep` between entries. -/
def joinWith (sep : Str) : List Str → Str
  | [] => []
  | [p] => p
  | p :: ps => p ++ sep ++ joinWith sep ps

/-- The non-empty chunks of the text clean-up (app.py lines 67-69): lines
are stripped, split at double spaces, the fragments stripped again, and the
empty ones discarded. -/
def cleanChunks (s : Str) : List Str :=
  ((((splitlines s).map pyStrip).flatMap
    (fun line => (splitDD line).map pyStrip))).filter (fun c => !c.isEmpty)

/-- The text clean-up of `scrape_website` (app.py lines 67-69): strip each
line, split lines at double spaces, strip the fragments, and join the
non-empty fragments with single spaces. -/
def cleanText (s : Str) : Str :=
  joinWith [' '] (cleanChunks s)

/-! ## The parsed HTML document -/

/-- A node of the parsed HTML tree: a text node, or an element with a tag
name, attributes and children.  This is the tree `BeautifulSoup` hands back
to `scrape_website`; a document is a list of top-level nodes. -/
inductive Node where
  | text (s : Str)
  | elem (tag : Str) (attrs : List (Str × Str)) (children : List Node)

/-- Attribute lookup on an element's attribute list. -/
def getAttr (attrs : List (Str × Str)) (key : Str) : Option Str :=
  (attrs.find? (fun p => decide (p.1 = key))).map (fun p => p.2)

mutual
/-- `soup.get_text()` (app.py line 64): concatenation of all text nodes in
document order, with no separator. -/
def getText : Node → Str
  | .text s => s
  | .elem _ _ cs => getTextList cs
/-- `get_text` over a list of sibling nodes. -/
def getTextList : List Node → Str
  | [] => []
  | n :: ns => getText n ++ getTextList ns
end

/-- The tags decomposed by `scrape_website` (app.py line 60). -/
def bannedTags : List Str :=
  [str ("script"), str ("style"), str ("nav"), str ("header"), str ("footer")]

mutual
/-- Effect of the decompose loop (app.py lines 60-61) on one node: a banned
element disappears with its whole subtree, everything else is kept. -/
def removeBanned : Node → List Node
  | .text s => [.text s]
  | .elem t a cs =>
    if t ∈ bannedTags then [] else [.elem t a (removeBannedList cs)]
/-- Effect of the decompose loop on a list of sibling nodes. -/
def removeBannedList : List Node → List Node
  | [] => []
  | n :: ns => removeBanned n ++ removeBannedList ns
end

mutual
/-- `soup.find_all('a', href=True)` (app.py line 74): every element with tag
`a` carrying an `href` attribute, in document (preorder) order. -/
def findAnchors : Node → List Node
  | .text _ => []
  | .elem t a cs =>
    (if t = str ("a") ∧ (getAttr a (str ("href"))).isSome
     then [Node.elem t a cs] else []) ++ findAnchorsList cs
/-- `find_all` over a list of sibling nodes. -/
def findAnchorsList : List Node → List Node
  | [] => []
  | n :: ns => findAnchors n ++ findAnchorsList ns
end

/-- Body of the link loop (app.py lines 74-78): keep an anchor when its
stripped text and its `href` value are both non-empty, formatted as
`"<text>: <href>"`. -/
def linkEntry (n : Node) : Option Str :=
  match n with
  | .text _ => none
  | .elem _ a cs =>
    match getAttr a (str ("href")) with
    | none => none
    | some u =>
      let t := pyStrip (getTextList cs)
      if t ≠ [] ∧ u ≠ [] then some (t ++ str (": ") ++ u) else none

/-- The link collection of `scrape_website` (app.py lines 72-78). -/
def collectLinks (ns : List Node) : List Str :=
  (findAnchorsList ns).filterMap linkEntry

/-- Parse-and-clean phase of `scrape_website` (app.py lines 57-80), applied
to the parsed document: decompose the banned tags, clean the remaining text,
and collect links when `include_links` is set. -/
def scrapeParse (doc : List Node) (include_links : Bool) : Str × List Str :=
  let pruned := removeBannedList doc
  (cleanText (getTextList pruned),
   if include_links then collectLinks pruned else [])

/-- The HTML fixture of the end-to-end scenario:
`<html><body><script>ignore()</script><h1>Title</h1><p>Price: $10  Price: $20</p></body></html>`. -/
def fixtureDoc : List Node :=
  [.elem (str ("html")) []
    [.elem (str ("body")) []
      [.elem (str ("script")) [] [.text (str ("ignore()"))],
       .elem (str ("h1")) [] [.text (str ("Title"))],
       .elem (str ("p")) [] [.text (str ("Price: $10  Price: $20"))]]]]

/-- A document whose only anchor sits inside a `nav` element. -/
def navAnchorDoc : List Node :=
  [.elem (str ("nav")) []
    [.elem (str ("a")) [(str ("href"), str ("/x"))] [.text (str ("Home"))]]]

/-! ## Spec-side characterisations (for the refinement claims) -/

mutual
/-- Spec-side text collection, following the spec's words for C7: the
subtrees of the removed tags contribute nothing, every other text node is
emitted in document order. -/
def specVisibleText : Node → Str
  | .text s => s
  | .elem t _ cs => if t ∈ bannedTags then [] else specVisibleTextList cs
/-- Spec-side text collection over a list of sibling nodes. -/
def specVisibleTextList : List Node → Str
  | [] => []
  | n :: ns => specVisibleText n ++ specVisibleTextList ns
end

mutual
/-- Spec-side link collection, following the claim's words for C8: every
anchor element having both non-empty trimmed visible text and a non-empty
href, formatted as `"<text>: <href>"`, in document order. -/
def specLinks : Node → List Str
  | .text _ => []
  | .elem t a cs =>
    (if t = str ("a") then
       match getAttr a (str ("href")) with
       | none => []
       | some u =>
         if pyStrip (getTextList cs) ≠ [] ∧ u ≠ []
         then [pyStrip (getTextList cs) ++ str (": ") ++ u] else []
     else []) ++ specLinksList cs
/-- Spec-side link collection over a list of sibling nodes. -/
def specLinksList : List Node → List Str
  | [] => []
  | n :: ns => specLinks n ++ specLinksList ns
end

/-- Absence of two consecutive space characters, as a chain condition. -/
def noTwoSpaces (l : Str) : Prop :=
  List.Chain' (fun a b => ¬(a = ' ' ∧ b = ' ')) l

/-! ## The Fetcher -/

/-- An outbound HTTP request, as issued by `scrape_website`. -/
structure HttpRequest where
  method : Str
  url : Str
  userAgent : Str
  timeoutSecs : Nat
deriving DecidableEq

/-- The fixed browser-like User-Agent header (app.py line 51). -/
def fixedUserAgent : Str :=
  str ("Mozilla/5.0 (Windows NT 10.0; Win64; x64) AppleWebKit/537.36 (KHTML, like Gecko) Chrome/91.0.4472.124 Safari/537.36")

/-- The one request `requests.get(url, headers=headers, timeout=10)` issues
(app.py lines 50-54). -/
def fetchRequest (url : Str) : HttpRequest :=
  { method := str ("GET"), url := url
    userAgent := fixedUserAgent, timeoutSecs := 10 }

/-- Outcome of the external `requests.get` call: an HTTP response (with its
status code, the exception description `str(e)` that `raise_for_status`
would produce for it, and the parsed body), a connection error, or a
timeout.  The latter two carry the exception description `str(e)`. -/
inductive HttpOutcome where
  | response (status : Nat) (excDesc : Str) (doc : List Node)
  | connError (excDesc : Str)
  | timeoutErr (excDesc : Str)

/-- `response.raise_for_status()` (app.py line 55) raises `HTTPError`
exactly for status codes 400-599. -/
def raiseForStatusFails (status : Nat) : Bool :=
  400 ≤ status && status < 600

/-- Result of `scrape_website`: cleaned text plus links, or the message
built in the `except requests.exceptions.RequestException` branch. -/
inductive ScrapeOutcome where
  | ok (text : Str) (links : List Str)
  | fetchError (msg : Str)
deriving DecidableEq

/-- `scrape_website` (app.py lines 47-85): the single request it issues,
paired with its result.  A connection error, a timeout, or an `HTTPError`
from `raise_for_status` is a `requests.exceptions.RequestException` and is
caught into the `"Failed to fetch webpage: "` message (line 83). -/
def scrape_website (url : Str) (outcome : HttpOutcome) (include_links : Bool) :
    List HttpRequest × ScrapeOutcome :=
  ([fetchRequest url],
   match outcome with
   | .connError d => .fetchError (str ("Failed to fetch webpage: ") ++ d)
   | .timeoutErr d => .fetchError (str ("Failed to fetch webpage: ") ++ d)
   | .response s d doc =>
     if raiseForStatusFails s then
       .fetchError (str ("Failed to fetch webpage: ") ++ d)
     else
       .ok (scrapeParse doc include_links).1 (scrapeParse doc include_links).2)

/-! ## Prompt building and the Extraction Client -/

/-- Python `str.lower()` on one character (ASCII letters). -/
def lowerChar (c : Char) : Char :=
  if 'A' ≤ c ∧ c ≤ 'Z' then Char.ofNat (c.toNat + 32) else c

/-- Python `s.lower()`. -/
def pyLower (s : Str) : Str := s.map lowerChar

/-- `content_to_analyze` (app.py lines 95-99): the first `max_chars`
characters of the cleaned text; when links were collected and the
include-links option is on, the first 20 links are appended after a fixed
header, untouched by the character budget. -/
def contentToAnalyze (text_content : Str) (links : List Str)
    (max_chars : Nat) (include_links : Bool) : Str :=
  let content := text_content.take max_chars
  if links ≠ [] ∧ include_links = true then
    content ++ str ("\n\nLinks found:\n") ++ joinWith (str ("\n")) (links.take 20)
  else content

/-- The f-string `extraction_prompt` (app.py lines 102-112). -/
def extractionPrompt (user_prompt content : Str) : Str :=
  str ("\nPlease extract the following information from the webpage content below:\n\nEXTRACTION REQUEST: ") ++
  user_prompt ++
  str ("\n\nWEBPAGE CONTENT:\n") ++
  content ++
  str ("\n\nPlease provide a clear, structured response with the requested information. \nIf the information is not available, please state that clearly.\n")

/-- Parameters of the `model.generate_content` call (app.py lines 115-121). -/
structure LLMCall where
  prompt : Str
  api_key : Str
  model : Str
  temperature : ℚ
  maxOutputTokens : Nat
deriving DecidableEq

/-- Outcome of the external generation call: generated text, or an
exception whose description is `str(e)`. -/
inductive LLMOutcome where
  | ok (text : Str)
  | raises (excDesc : Str)

/-- The error message built at app.py line 126. -/
def geminiErrorMsg (excDesc : Str) : Str :=
  str ("Gemini API error: ") ++ excDesc

/-- `extract_with_gemini` (app.py lines 87-126): the generation call it
makes, paired with its result; any exception is caught into the
`"Gemini API error: "` message. -/
def extract_with_gemini (text_content : Str) (links : List Str)
    (user_prompt api_key model : Str) (temp : ℚ)
    (max_chars : Nat) (include_links : Bool) (outcome : LLMOutcome) :
    LLMCall × Except Str Str :=
  ({ prompt := extractionPrompt user_prompt
       (contentToAnalyze text_content links max_chars include_links)
     api_key := api_key, model := model
     temperature := temp, maxOutputTokens := 2048 },
   match outcome with
   | .ok t => Except.ok t
   | .raises d => Except.error (geminiErrorMsg d))

/-! ## The Start Scraping button handler -/

/-- The two supplementary hints (app.py lines 166 and 168). -/
inductive Hint where
  | keyHint
  | quotaHint
deriving DecidableEq

/-- Text of the key-related hint (app.py line 166). -/
def keyHintMsg : Str :=
  str ("💡 Please check that your Gemini API key is correct and active.")

/-- Text of the quota-related hint (app.py line 168). -/
def quotaHintMsg : Str :=
  str ("💡 You may have exceeded your API quota. Try again later or check your API limits.")

/-- Hint selection (app.py lines 165-168): an if/elif chain over
case-insensitive substring tests on the error message. -/
def selectHint (gemini_error : Str) : Option Hint :=
  if (str ("api")) <:+: pyLower gemini_error ∧ (str ("key")) <:+: pyLower gemini_error then
    some .keyHint
  else if (str ("quota")) <:+: pyLower gemini_error then
    some .quotaHint
  else
    none

/-- The list of missing required fields, in source order
(app.py lines 131-134). -/
def missingFields (prompt source_url api_key : Str) : List Str :=
  (if prompt = [] then [str ("extraction prompt")] else []) ++
  (if source_url = [] then [str ("source URL")] else []) ++
  (if api_key = [] then [str ("API key")] else [])

/-- Observable steps of one run of the button handler: messages shown and
external calls made. -/
inductive Effect where
  | errorMsg (s : Str)
  | infoMsg (s : Str)
  | successMsg (s : Str)
  | resultShown (s : Str)
  | httpGet (r : HttpRequest)
  | llmGenerate (c : LLMCall)
deriving DecidableEq

/-- The Start Scraping button handler (app.py lines 129-196), as the
sequence of messages shown and external calls made during one run.  The
outcomes of the two external calls are parameters.  Progress-bar and
status-text updates, the details expander and the download button are not
modelled; the success branch is summarised by its success message and the
displayed result. -/
def startScraping (prompt source_url api_key model_choice : Str)
    (max_chars : Nat) (include_links : Bool) (temperature : ℚ)
    (fetchOutcome : HttpOutcome) (llmOutcome : LLMOutcome) : List Effect :=
  if prompt = [] ∨ source_url = [] ∨ api_key = [] then
    [.errorMsg (str ("❌ Please provide: ") ++
       joinWith (str (", ")) (missingFields prompt source_url api_key))]
  else
    match scrape_website source_url fetchOutcome include_links with
    | (reqs, .fetchError scrape_error) =>
      reqs.map .httpGet ++ [.errorMsg (str ("❌ ") ++ scrape_error)]
    | (reqs, .ok text_content links) =>
      let geminiStep := extract_with_gemini text_content links prompt api_key
        model_choice temperature max_chars include_links llmOutcome
      reqs.map .httpGet ++
      match geminiStep.2 with
      | .error gemini_error =>
        [.llmGenerate geminiStep.1, .errorMsg (str ("❌ ") ++ gemini_error)] ++
        (match selectHint gemini_error with
         | some .keyHint => [.infoMsg keyHintMsg]
         | some .quotaHint => [.infoMsg quotaHintMsg]
         | none => [])
      | .ok result =>
        [.llmGenerate geminiStep.1,
         .successMsg (str ("✅ Scraping completed successfully!")),
         .resultShown result]

/-! ## Theorems -/

/-- The fixed error text prepended at app.py line 126 makes the "api" test
of line 165 succeed on every message it heads. -/
theorem api_in_message (raw : Str) :
    (str ("api")) <:+: pyLower (geminiErrorMsg raw) := by
  have h1 : (str ("api")) <:+: pyLower (str ("Gemini API error: ")) := by decide
  have h2 : pyLower (str ("Gemini API error: ")) <+: pyLower (geminiErrorMsg raw) := by
    rw [geminiErrorMsg, pyLower, pyLower, List.map_append]
    exact List.prefix_append _ _
  exact h1.trans ( List.IsPrefix.isInfix h2)

/-- A "key" occurrence in the raw exception text survives into the full
error message. -/
theorem key_in_message (raw : Str) (h : (str ("key")) <:+: pyLower raw) :
    (str ("key")) <:+: pyLower (geminiErrorMsg raw) := by
  have h2 : pyLower raw <:+ pyLower (geminiErrorMsg raw) := by
    rw [geminiErrorMsg, pyLower, pyLower, List.map_append]
    exact List.suffix_append _ _
  exact h.trans ( List.IsSuffix.isInfix h2)

/-- C10: every LLM error message begins with the fixed text
"Gemini API error: "; hence the key hint fires exactly when the message
contains "key" case-insensitively, and - the selection being an if/elif
chain - the quota hint fires exactly when the message contains "quota" and
not "key", so a message containing both yields only the key hint. -/
theorem hint_classification (raw : Str) :
    (str ("Gemini API error: ")) <+: geminiErrorMsg raw ∧
    (selectHint (geminiErrorMsg raw) = some Hint.keyHint ↔
      (str ("key")) <:+: pyLower (geminiErrorMsg raw)) ∧
    (selectHint (geminiErrorMsg raw) = some Hint.quotaHint ↔
      ((str ("quota")) <:+: pyLower (geminiErrorMsg raw) ∧
       ¬ (str ("key")) <:+: pyLower (geminiErrorMsg raw))) := by
  have hA := api_in_message raw
  refine ⟨ List.prefix_append _ _, ?_, ?_⟩
  · by_cases hk : (str ("key")) <:+: pyLower (geminiErrorMsg raw)
    · simp [selectHint, hA, hk]
    · by_cases hq : (str ("quota")) <:+: pyLower (geminiErrorMsg raw) <;>
        simp [selectHint, hk, hq]
  · by_cases hk : (str ("key")) <:+: pyLower (geminiErrorMsg raw)
    · simp [selectHint, hA, hk]
    · by_cases hq : (str ("quota")) <:+: pyLower (geminiErrorMsg raw) <;>
        simp [selectHint, hk, hq]

/-- C3: when the raw exception text of a generation failure contains "key"
case-insensitively, the run surfaces the key hint directly alongside the raw
error message. -/
theorem key_hint_fires (prompt source_url api_key model_choice : Str)
    (max_chars : Nat) (include_links : Bool) (temperature : ℚ)
    (s : Nat) (d : Str) (doc : List Node) (raw : Str)
    (hp : prompt ≠ []) (hu : source_url ≠ []) (hk : api_key ≠ [])
    (hs : raiseForStatusFails s = false)
    (hkey : (str ("key")) <:+: pyLower raw) :
    selectHint (geminiErrorMsg raw) = some Hint.keyHint ∧
    startScraping prompt source_url api_key model_choice max_chars
        include_links temperature (.response s d doc) (.raises raw) =
      [.httpGet (fetchRequest source_url),
       .llmGenerate (extract_with_gemini (scrapeParse doc include_links).1
         (scrapeParse doc include_links).2 prompt api_key model_choice
         temperature max_chars include_links (.raises raw)).1,
       .errorMsg (str ("❌ ") ++ geminiErrorMsg raw),
       .infoMsg keyHintMsg] := by
  have hsel : selectHint (geminiErrorMsg raw) = some Hint.keyHint := by
    simp [selectHint, api_in_message raw, key_in_message raw hkey]
  refine ⟨hsel, ?_⟩
  simp [startScraping, hp, hu, hk, scrape_website, hs, extract_with_gemini, hsel]

/-- Witness for `key_hint_fires` at concrete inputs. -/
theorem key_hint_fires_witness :
    (str ("p")) ≠ ([] : Str) ∧ (str ("u")) ≠ ([] : Str) ∧
    (str ("k")) ≠ ([] : Str) ∧ raiseForStatusFails 200 = false ∧
    (str ("key")) <:+: pyLower (str ("Invalid API KEY supplied")) ∧
    (selectHint (geminiErrorMsg (str ("Invalid API KEY supplied"))) =
       some Hint.keyHint ∧
     startScraping (str ("p")) (str ("u")) (str ("k")) (str ("m")) 5000
        false 0 (.response 200 (str ("")) [Node.text (str ("hi"))])
        (.raises (str ("Invalid API KEY supplied"))) =
      [.httpGet (fetchRequest (str ("u"))),
       .llmGenerate (extract_with_gemini
         (scrapeParse [Node.text (str ("hi"))] false).1
         (scrapeParse [Node.text (str ("hi"))] false).2
         (str ("p")) (str ("k")) (str ("m")) 0 5000 false
         (.raises (str ("Invalid API KEY supplied")))).1,
       .errorMsg (str ("❌ ") ++
         geminiErrorMsg (str ("Invalid API KEY supplied"))),
       .infoMsg keyHintMsg]) :=
  ⟨by decide, by decide, by decide, by decide, by decide,
   key_hint_fires (str ("p")) (str ("u")) (str ("k")) (str ("m")) 5000
     false 0 200 (str ("")) [Node.text (str ("hi"))]
     (str ("Invalid API KEY supplied"))
     (by decide) (by decide) (by decide) (by decide) (by decide)⟩

/-- C1 counterexample: on the fixed HTML fixture the extraction step does
not return the text the claim states; `get_text` inserts no separator
between the end of the h1 element and the start of the p element. -/
theorem fixture_text_counterexample :
    (scrapeParse fixtureDoc false).1 ≠ str ("Title Price: $10 Price: $20") := by
  decide

/-- C1 (amended): on the fixed HTML fixture with includeLinks=false the
extraction step returns the text "TitlePrice: $10 Price: $20" (no space
between "Title" and "Price") and an empty link list. -/
theorem fixture_extraction :
    scrapeParse fixtureDoc false = (str ("TitlePrice: $10 Price: $20"), []) := by
  decide

/-- C2: the page-text segment embedded in the built prompt is the hard
prefix cut of the cleaned text of length exactly min(k, len(text)); when
links are included and present, exactly the first 20 link entries follow it,
untouched by the character budget. -/
theorem prompt_budget (t : Str) (k : Nat) (hk1 : 1000 ≤ k) (hk2 : k ≤ 10000)
    (L : List Str) (inc : Bool) (up ak model : Str) (temp : ℚ)
    (o : LLMOutcome) :
    contentToAnalyze t L k inc =
      t.take k ++
        (if inc = true ∧ L ≠ [] then
           str ("\n\nLinks found:\n") ++ joinWith (str ("\n")) (L.take 20)
         else []) ∧
    (t.take k).length = min k t.length ∧
    (extract_with_gemini t L up ak model temp k inc o).1.prompt =
      extractionPrompt up (contentToAnalyze t L k inc) := by
  refine ⟨?_, by simp, rfl⟩
  by_cases hL : L = [] <;> cases inc <;> simp [contentToAnalyze, hL]

/-- Witness for `prompt_budget` at concrete inputs. -/
theorem prompt_budget_witness :
    1000 ≤ 1000 ∧ 1000 ≤ 10000 ∧
    (contentToAnalyze (str ("page text")) [str ("Home: /x")] 1000 true =
        (str ("page text")).take 1000 ++
          (if true = true ∧ ([str ("Home: /x")] : List Str) ≠ [] then
             str ("\n\nLinks found:\n") ++
               joinWith (str ("\n")) (([str ("Home: /x")] : List Str).take 20)
           else []) ∧
      ((str ("page text")).take 1000).length =
        min 1000 (str ("page text")).length ∧
      (extract_with_gemini (str ("page text")) [str ("Home: /x")]
          (str ("up")) (str ("ak")) (str ("m")) 0 1000 true
          (.ok (str ("r")))).1.prompt =
        extractionPrompt (str ("up"))
          (contentToAnalyze (str ("page text")) [str ("Home: /x")] 1000 true)) :=
  ⟨by decide, by decide,
   prompt_budget (str ("page text")) 1000 (by decide) (by decide)
     [str ("Home: /x")] true (str ("up")) (str ("ak")) (str ("m")) 0
     (.ok (str ("r")))⟩

/-- C5 counterexample: status 304 is not 2xx, yet `scrape_website` returns
page content for it rather than a fetch error - `raise_for_status` raises
only for 400-599. -/
theorem fetch_non2xx_counterexample :
    ¬ (200 ≤ 304 ∧ 304 < 300) ∧
    (scrape_website (str ("http://example.com"))
        (.response 304 (str ("304 Not Modified")) [Node.text (str ("hi"))])
        false).2 =
      ScrapeOutcome.ok (str ("hi")) [] := by
  decide

/-- C5 (amended): the fetch step issues exactly one GET request with the
fixed User-Agent and 10-second timeout and never retries; a connection
error, a timeout, or an HTTP status in 400-599 each yield a fetch error
carrying the underlying exception description. -/
theorem fetcher_contract (url : Str) (inc : Bool) (o : HttpOutcome)
    (d : Str) (doc : List Node) (s : Nat) (hs : 400 ≤ s ∧ s < 600) :
    (scrape_website url o inc).1 = [fetchRequest url] ∧
    (fetchRequest url).method = str ("GET") ∧
    (fetchRequest url).userAgent = fixedUserAgent ∧
    (fetchRequest url).timeoutSecs = 10 ∧
    (scrape_website url (.connError d) inc).2 =
      .fetchError (str ("Failed to fetch webpage: ") ++ d) ∧
    (scrape_website url (.timeoutErr d) inc).2 =
      .fetchError (str ("Failed to fetch webpage: ") ++ d) ∧
    (scrape_website url (.response s d doc) inc).2 =
      .fetchError (str ("Failed to fetch webpage: ") ++ d) := by
  have hb : raiseForStatusFails s = true := by
    unfold raiseForStatusFails
    simp only [Bool.and_eq_true, decide_eq_true_eq]
    exact hs
  exact ⟨rfl, rfl, rfl, rfl, rfl, rfl, by simp [scrape_website, hb]⟩

/-- Witness for `fetcher_contract` at concrete inputs. -/
theorem fetcher_contract_witness :
    (400 ≤ 404 ∧ 404 < 600) ∧
    ((scrape_website (str ("http://e.com")) (.connError (str ("x")))
        false).1 = [fetchRequest (str ("http://e.com"))] ∧
     (fetchRequest (str ("http://e.com"))).method = str ("GET") ∧
     (fetchRequest (str ("http://e.com"))).userAgent = fixedUserAgent ∧
     (fetchRequest (str ("http://e.com"))).timeoutSecs = 10 ∧
     (scrape_website (str ("http://e.com"))
         (.connError (str ("boom"))) false).2 =
       .fetchError (str ("Failed to fetch webpage: ") ++ str ("boom")) ∧
     (scrape_website (str ("http://e.com"))
         (.timeoutErr (str ("boom"))) false).2 =
       .fetchError (str ("Failed to fetch webpage: ") ++ str ("boom")) ∧
     (scrape_website (str ("http://e.com"))
         (.response 404 (str ("boom")) []) false).2 =
       .fetchError (str ("Failed to fetch webpage: ") ++ str ("boom"))) :=
  ⟨by decide,
   fetcher_contract (str ("http://e.com")) false (.connError (str ("x")))
     (str ("boom")) [] 404 (by decide)⟩

/-- C9: when the fetch step returns an error, the handler shows that error
and halts; the generation call is never made in that run. -/
theorem fetch_error_halts (prompt source_url api_key model_choice : Str)
    (max_chars : Nat) (include_links : Bool) (temperature : ℚ)
    (fo : HttpOutcome) (lo : LLMOutcome) (msg : Str) (c : LLMCall)
    (hp : prompt ≠ []) (hu : source_url ≠ []) (hk : api_key ≠ [])
    (hfail : (scrape_website source_url fo include_links).2 =
      ScrapeOutcome.fetchError msg) :
    startScraping prompt source_url api_key model_choice max_chars
        include_links temperature fo lo =
      [.httpGet (fetchRequest source_url),
       .errorMsg (str ("❌ ") ++ msg)] ∧
    Effect.llmGenerate c ∉ startScraping prompt source_url api_key
      model_choice max_chars include_links temperature fo lo := by
  have h1 : scrape_website source_url fo include_links =
      ([fetchRequest source_url], ScrapeOutcome.fetchError msg) := by
    have h0 : scrape_website source_url fo include_links =
        ([fetchRequest source_url],
         (scrape_website source_url fo include_links).2) := rfl
    rw [h0, hfail]
  have h2 : startScraping prompt source_url api_key model_choice max_chars
      include_links temperature fo lo =
      [.httpGet (fetchRequest source_url),
       .errorMsg (str ("❌ ") ++ msg)] := by
    simp [startScraping, hp, hu, hk, h1]
  exact ⟨h2, by simp [h2]⟩

/-- Witness for `fetch_error_halts` at concrete inputs. -/
theorem fetch_error_halts_witness :
    (str ("p")) ≠ ([] : Str) ∧ (str ("u")) ≠ ([] : Str) ∧
    (str ("k")) ≠ ([] : Str) ∧
    (scrape_website (str ("u")) (.connError (str ("boom"))) false).2 =
      ScrapeOutcome.fetchError (str ("Failed to fetch webpage: boom")) ∧
    (startScraping (str ("p")) (str ("u")) (str ("k")) (str ("m")) 5000
        false 0 (.connError (str ("boom"))) (.ok (str ("r"))) =
      [.httpGet (fetchRequest (str ("u"))),
       .errorMsg (str ("❌ ") ++ str ("Failed to fetch webpage: boom"))] ∧
     Effect.llmGenerate
         { prompt := [], api_key := [], model := [],
           temperature := 0, maxOutputTokens := 0 } ∉
       startScraping (str ("p")) (str ("u")) (str ("k")) (str ("m")) 5000
         false 0 (.connError (str ("boom"))) (.ok (str ("r")))) :=
  ⟨by decide, by decide, by decide, by decide,
   fetch_error_halts (str ("p")) (str ("u")) (str ("k")) (str ("m")) 5000
     false 0 (.connError (str ("boom"))) (.ok (str ("r")))
     (str ("Failed to fetch webpage: boom"))
     { prompt := [], api_key := [], model := [],
       temperature := 0, maxOutputTokens := 0 }
     (by decide) (by decide) (by decide) (by decide)⟩

/-- C4: with any required field missing, the handler shows exactly one
combined message naming precisely the missing fields and makes no network
call at all. -/
theorem missing_field_validation (prompt source_url api_key model_choice : Str)
    (max_chars : Nat) (include_links : Bool) (temperature : ℚ)
    (fo : HttpOutcome) (lo : LLMOutcome) (r : HttpRequest) (c : LLMCall)
    (h : prompt = [] ∨ source_url = [] ∨ api_key = []) :
    startScraping prompt source_url api_key model_choice max_chars
        include_links temperature fo lo =
      [.errorMsg (str ("❌ Please provide: ") ++
         joinWith (str (", ")) (missingFields prompt source_url api_key))] ∧
    Effect.httpGet r ∉ startScraping prompt source_url api_key model_choice
      max_chars include_links temperature fo lo ∧
    Effect.llmGenerate c ∉ startScraping prompt source_url api_key
      model_choice max_chars include_links temperature fo lo ∧
    ((str ("extraction prompt")) ∈ missingFields prompt source_url api_key ↔
      prompt = []) ∧
    ((str ("source URL")) ∈ missingFields prompt source_url api_key ↔
      source_url = []) ∧
    ((str ("API key")) ∈ missingFields prompt source_url api_key ↔
      api_key = []) := by
  have h1 : startScraping prompt source_url api_key model_choice max_chars
      include_links temperature fo lo =
      [.errorMsg (str ("❌ Please provide: ") ++
         joinWith (str (", ")) (missingFields prompt source_url api_key))] := by
    simp [startScraping, h]
  refine ⟨h1, by simp [h1], by simp [h1], ?_, ?_, ?_⟩ <;>
    (by_cases hp : prompt = [] <;> by_cases hu : source_url = [] <;>
      by_cases hk : api_key = [] <;>
      simp [missingFields, hp, hu, hk, str])

/-- Witness for `missing_field_validation` at concrete inputs. -/
theorem missing_field_validation_witness :
    (([] : Str) = [] ∨ (str ("u")) = ([] : Str) ∨ (str ("k")) = ([] : Str)) ∧
    (startScraping [] (str ("u")) (str ("k")) (str ("m")) 5000 false 0
        (.connError (str ("x"))) (.ok (str ("r"))) =
      [.errorMsg (str ("❌ Please provide: ") ++
         joinWith (str (", ")) (missingFields [] (str ("u")) (str ("k"))))] ∧
     Effect.httpGet (fetchRequest (str ("u"))) ∉
       startScraping [] (str ("u")) (str ("k")) (str ("m")) 5000 false 0
         (.connError (str ("x"))) (.ok (str ("r"))) ∧
     Effect.llmGenerate
         { prompt := [], api_key := [], model := [],
           temperature := 0, maxOutputTokens := 0 } ∉
       startScraping [] (str ("u")) (str ("k")) (str ("m")) 5000 false 0
         (.connError (str ("x"))) (.ok (str ("r"))) ∧
     ((str ("extraction prompt")) ∈ missingFields [] (str ("u")) (str ("k")) ↔
       ([] : Str) = []) ∧
     ((str ("source URL")) ∈ missingFields [] (str ("u")) (str ("k")) ↔
       (str ("u")) = ([] : Str)) ∧
     ((str ("API key")) ∈ missingFields [] (str ("u")) (str ("k")) ↔
       (str ("k")) = ([] : Str))) :=
  ⟨by decide,
   missing_field_validation [] (str ("u")) (str ("k")) (str ("m")) 5000
     false 0 (.connError (str ("x"))) (.ok (str ("r")))
     (fetchRequest (str ("u")))
     { prompt := [], api_key := [], model := [],
       temperature := 0, maxOutputTokens := 0 }
     (by decide)⟩

/-- Concatenated text of appended sibling lists. -/
theorem getTextList_append (a b : List Node) :
    getTextList (a ++ b) = getTextList a ++ getTextList b := by
  induction a with
  | nil => simp [getTextList]
  | cons n ns ih => simp [getTextList, ih]

mutual
/-- Decomposing then reading text skips exactly the banned subtrees (node
version). -/
theorem getText_removeBanned : ∀ n : Node,
    getTextList (removeBanned n) = specVisibleText n
  | .text s => by simp [removeBanned, getTextList, getText, specVisibleText]
  | .elem t a cs => by
    by_cases h : t ∈ bannedTags
    · simp [removeBanned, h, getTextList, specVisibleText]
    · simp [removeBanned, h, getTextList, getText, specVisibleText,
        getTextList_removeBanned cs]
/-- Decomposing then reading text skips exactly the banned subtrees (list
version). -/
theorem getTextList_removeBanned : ∀ ns : List Node,
    getTextList (removeBannedList ns) = specVisibleTextList ns
  | [] => by simp [removeBannedList, getTextList, specVisibleTextList]
  | n :: ns => by
    simp [removeBannedList, getTextList_append, specVisibleTextList,
      getText_removeBanned n, getTextList_removeBanned ns]
end

/-- C7: text inside script, style, nav, header or footer subtrees
contributes nothing to the output: the extracted text equals the clean-up
of the text collected with those subtrees skipped altogether. -/
theorem banned_tags_contribute_nothing (doc : List Node) (inc : Bool) :
    getTextList (removeBannedList doc) = specVisibleTextList doc ∧
    (scrapeParse doc inc).1 = cleanText (specVisibleTextList doc) := by
  refine ⟨getTextList_removeBanned doc, ?_⟩
  simp [scrapeParse, getTextList_removeBanned doc]

/-- Anchor search distributes over sibling append. -/
theorem findAnchorsList_append (a b : List Node) :
    findAnchorsList (a ++ b) = findAnchorsList a ++ findAnchorsList b := by
  induction a with
  | nil => simp [findAnchorsList]
  | cons n ns ih => simp [findAnchorsList, ih]

mutual
/-- The code's link loop agrees with the spec-side description (node
version). -/
theorem links_spec_node : ∀ n : Node,
    (findAnchors n).filterMap linkEntry = specLinks n
  | .text s => by simp [findAnchors, specLinks]
  | .elem t a cs => by
    rw [findAnchors, specLinks, List.filterMap_append]
    congr 1
    · by_cases ht : t = str ("a")
      · cases hA : getAttr a (str ("href")) with
        | none => simp [ht, hA, linkEntry]
        | some u =>
          simp only [ht, hA, Option.isSome_some, and_true, if_true,
            List.filterMap_cons, List.filterMap_nil, linkEntry]
          by_cases hc : pyStrip (getTextList cs) ≠ [] ∧ u ≠ [] <;>
            simp [hc]
      · simp [ht]
    · exact links_spec_list cs
/-- The code's link loop agrees with the spec-side description (list
version). -/
theorem links_spec_list : ∀ ns : List Node,
    (findAnchorsList ns).filterMap linkEntry = specLinksList ns
  | [] => by simp [findAnchorsList, specLinksList]
  | n :: ns => by
    rw [findAnchorsList, List.filterMap_append, specLinksList,
      links_spec_node n, links_spec_list ns]
end

/-- C8 (amended): with includeLinks=false the returned link list is always
empty; with includeLinks=true it contains exactly the anchors surviving the
script/style/nav/header/footer removal that have non-empty trimmed text and
non-empty href, formatted "<text>: <href>", in document order. -/
theorem links_behavior (doc : List Node) :
    (scrapeParse doc false).2 = [] ∧
    (scrapeParse doc true).2 = specLinksList (removeBannedList doc) := by
  exact ⟨rfl, by simp [scrapeParse, collectLinks, links_spec_list]⟩

/-- C8 counterexample: an anchor inside a nav element has non-empty trimmed
text and a non-empty href, yet the returned link list is empty, because the
code collects links only after decomposing the nav subtree. -/
theorem nav_anchor_counterexample :
    specLinksList navAnchorDoc = [str ("Home: /x")] ∧
    (scrapeParse navAnchorDoc true).2 = [] := by
  decide

/-- Bridge: the chain form of "no two consecutive spaces" is the absence of
the two-space pattern. -/
theorem noDD_iff : ∀ l : Str, noTwoSpaces l ↔ ¬ (str ("  ")) <:+: l
  | [] => by
    constructor
    · intro _ h
      have h2 := h.length_le
      have h3 : (str ("  ")).length = 2 := rfl
      rw [h3] at h2
      simp at h2
    · intro _
      exact List.chain'_nil
  | [c] => by
    constructor
    · intro _ h
      have h2 := h.length_le
      have h3 : (str ("  ")).length = 2 := rfl
      rw [h3] at h2
      simp at h2
    · intro _
      exact List.chain'_singleton c
  | a :: b :: t => by
    have hs : str ("  ") = [' ', ' '] := rfl
    have ih := noDD_iff (b :: t)
    rw [noTwoSpaces] at ih ⊢
    rw [List.chain'_cons, hs, List.infix_cons_iff, List.cons_prefix_cons]
    rw [hs] at ih
    constructor
    · rintro ⟨hR, hc⟩ h
      rcases h with (⟨ha, hpre⟩ | hi)
      · rw [List.cons_prefix_cons] at hpre
        exact hR ⟨ha.symm, hpre.1.symm⟩
      · exact ih.mp hc hi
    · intro hn
      refine ⟨fun hab => hn (Or.inl ⟨hab.1.symm, ?_⟩), ih.mpr fun hi => hn (Or.inr hi)⟩
      rw [List.cons_prefix_cons]
      exact ⟨hab.2.symm, List.nil_prefix⟩

/-- The head of the first fragment of a double-space split is the head of
the input. -/
theorem splitDD_head (s : Str) : ∀ (h : Str) (t : List Str),
    splitDD s = h :: t → ∀ x, h.head? = some x → s.head? = some x := by
  induction s using splitDD.induct with
  | case1 =>
    intro h t he x hx
    rw [splitDD.eq_1] at he
    injection he with h1 h2
    subst h1
    simp at hx
  | case2 rest ih =>
    intro h t he x hx
    rw [splitDD.eq_2] at he
    injection he with h1 h2
    subst h1
    simp at hx
  | case3 c rest hg hnil ih =>
    intro h t he x hx
    rw [splitDD.eq_3 c rest hg, hnil] at he
    injection he with h1 h2
    subst h1
    simp at hx
    simp [hx]
  | case4 c rest hg h' t' hspl ih =>
    intro h t he x hx
    rw [splitDD.eq_3 c rest hg, hspl] at he
    injection he with h1 h2
    subst h1
    simp at hx ⊢
    exact hx

/-- Fragments of the double-space split never contain two consecutive
spaces. -/
theorem splitDD_chain (s : Str) : ∀ p ∈ splitDD s, noTwoSpaces p := by
  induction s using splitDD.induct with
  | case1 =>
    intro p hp
    rw [splitDD.eq_1] at hp
    simp at hp
    subst hp
    exact List.chain'_nil
  | case2 rest ih =>
    intro p hp
    rw [splitDD.eq_2] at hp
    rcases List.mem_cons.mp hp with rfl | hp
    · exact List.chain'_nil
    · exact ih p hp
  | case3 c rest hg hnil ih =>
    intro p hp
    rw [splitDD.eq_3 c rest hg, hnil] at hp
    simp at hp
    subst hp
    exact List.chain'_singleton c
  | case4 c rest hg h' t' hspl ih =>
    intro p hp
    rw [splitDD.eq_3 c rest hg, hspl] at hp
    rcases List.mem_cons.mp hp with rfl | hp
    · have hh : noTwoSpaces h' := ih h' (hspl ▸ List.mem_cons_self h' t')
      rw [noTwoSpaces, List.chain'_cons']
      refine ⟨?_, hh⟩
      intro y hy
      rintro ⟨rfl, rfl⟩
      have h5 := splitDD_head rest h' t' hspl ' ' (Option.mem_def.mp hy)
      cases rest with
      | nil => simp at h5
      | cons r rs =>
        simp at h5
        exact hg rs rfl (by rw [h5])
    · exact ih p (hspl ▸ List.mem_cons_of_mem h' hp)

/-- Every fragment of the double-space split is a sublist of the input. -/
theorem splitDD_sublist (s : Str) : ∀ p ∈ splitDD s, List.Sublist p s := by
  induction s using splitDD.induct with
  | case1 =>
    intro p hp
    rw [splitDD.eq_1] at hp
    simp at hp
    simp [hp]
  | case2 rest ih =>
    intro p hp
    rw [splitDD.eq_2] at hp
    rcases List.mem_cons.mp hp with rfl | hp
    · simp
    · exact ((ih p hp).cons ' ').cons ' '
  | case3 c rest hg hnil ih =>
    intro p hp
    rw [splitDD.eq_3 c rest hg, hnil] at hp
    simp at hp
    subst hp
    exact (List.nil_sublist rest).cons₂ c
  | case4 c rest hg h' t' hspl ih =>
    intro p hp
    rw [splitDD.eq_3 c rest hg, hspl] at hp
    rcases List.mem_cons.mp hp with rfl | hp
    · exact (ih h' (hspl ▸ List.mem_cons_self h' t')).cons₂ c
    · exact (ih p (hspl ▸ List.mem_cons_of_mem h' hp)).cons c

/-- Stripping yields a prefix of the left-stripped string. -/
theorem pyStrip_prefixOf (s : Str) :
    pyStrip s <+: s.dropWhile isSpaceChar := by
  rw [pyStrip]
  have h := List.dropWhile_suffix (l := (s.dropWhile isSpaceChar).reverse)
    isSpaceChar
  rw [← List.reverse_prefix, List.reverse_reverse] at h
  exact h

/-- Stripping never invents characters: the result sits inside the input. -/
theorem pyStrip_sublist (s : Str) : List.Sublist (pyStrip s) s :=
  ((pyStrip_prefixOf s).sublist).trans ( List.dropWhile_sublist isSpaceChar)

/-- A non-empty strip result starts with a non-whitespace character. -/
theorem pyStrip_head (s : Str) :
    ∀ c, (pyStrip s).head? = some c → isSpaceChar c = false := by
  intro c hc
  have h9 := List.head?_dropWhile_not isSpaceChar s
  obtain ⟨r, hr⟩ := pyStrip_prefixOf s
  have hd : (s.dropWhile isSpaceChar).head? = some c := by
    rw [← hr]
    cases h0 : pyStrip s with
    | nil => rw [h0] at hc; simp at hc
    | cons a as =>
      rw [h0] at hc
      simp at hc
      simp [hc]
  rw [hd] at h9
  exact h9

/-- A non-empty strip result ends with a non-whitespace character. -/
theorem pyStrip_last (s : Str) :
    ∀ c, (pyStrip s).getLast? = some c → isSpaceChar c = false := by
  intro c hc
  rw [pyStrip, List.getLast?_reverse] at hc
  have h9 := List.head?_dropWhile_not isSpaceChar
    ((s.dropWhile isSpaceChar).reverse)
  rw [hc] at h9
  exact h9

/-- The head of a space-join is the head of its first entry. -/
theorem joinSp_head (p : Str) (ps : List Str) (hp : p ≠ []) :
    (joinWith [' '] (p :: ps)).head? = p.head? := by
  cases ps with
  | nil => rfl
  | cons q qs =>
    show ((p ++ [' ']) ++ joinWith [' '] (q :: qs)).head? = p.head?
    cases p with
    | nil => exact absurd rfl hp
    | cons a as => simp

/-- Joining non-empty chunks that neither start nor end with a space and
contain no two consecutive spaces gives a string with no two consecutive
spaces. -/
theorem joinSp_chain : ∀ ps : List Str,
    (∀ p ∈ ps, p ≠ [] ∧ noTwoSpaces p ∧
      (∀ c, p.head? = some c → isSpaceChar c = false) ∧
      (∀ c, p.getLast? = some c → isSpaceChar c = false)) →
    noTwoSpaces (joinWith [' '] ps)
  | [] => fun _ => List.chain'_nil
  | [p] => fun h => (h p (by simp)).2.1
  | p :: q :: qs => fun h => by
    have hp := h p (by simp)
    have hq := h q (by simp)
    have hrest : noTwoSpaces (joinWith [' '] (q :: qs)) :=
      joinSp_chain (q :: qs) (fun r hr => h r (List.mem_cons_of_mem p hr))
    show List.Chain' _ ((p ++ [' ']) ++ joinWith [' '] (q :: qs))
    rw [List.append_assoc]
    refine List.Chain'.append hp.2.1 ?_ ?_
    · rw [List.singleton_append, List.chain'_cons']
      refine ⟨?_, hrest⟩
      intro y hy
      rw [Option.mem_def, joinSp_head q qs hq.1] at hy
      have h6 := hq.2.2.1 y hy
      rintro ⟨-, rfl⟩
      simp [isSpaceChar] at h6
    · intro x hx y hy
      rw [Option.mem_def, List.singleton_append] at hy
      simp at hy
      have h7 := hp.2.2.2 x (Option.mem_def.mp hx)
      rintro ⟨rfl, -⟩
      simp [isSpaceChar] at h7

/-- Every character of a join comes from the separator or from one of the
joined chunks. -/
theorem joinWith_mem (sep : Str) : ∀ (ps : List Str) (c : Char),
    c ∈ joinWith sep ps → c ∈ sep ∨ ∃ p ∈ ps, c ∈ p
  | [] => by
    intro c hc
    simp [joinWith] at hc
  | [p] => by
    intro c hc
    exact Or.inr ⟨p, by simp, hc⟩
  | p :: q :: qs => by
    intro c hc
    have hc2 : c ∈ (p ++ sep) ++ joinWith sep (q :: qs) := hc
    rcases List.mem_append.mp hc2 with h1 | h1
    · rcases List.mem_append.mp h1 with h2 | h2
      · exact Or.inr ⟨p, by simp, h2⟩
      · exact Or.inl h2
    · rcases joinWith_mem sep (q :: qs) c h1 with h2 | ⟨r, hr, hcr⟩
      · exact Or.inl h2
      · exact Or.inr ⟨r, List.mem_cons_of_mem p hr, hcr⟩

/-- Lines cut by the splitlines worker contain no line-break characters. -/
theorem splitlinesGo_noLB : ∀ (s acc : Str),
    (∀ c ∈ acc, isLineBreak c = false) →
    ∀ l ∈ splitlinesGo s acc, ∀ c ∈ l, isLineBreak c = false := by
  intro s acc
  induction s, acc using splitlinesGo.induct with
  | case1 =>
    intro _ l hl
    rw [splitlinesGo.eq_1] at hl
    simp at hl
  | case2 acc hne =>
    intro hacc l hl
    rw [splitlinesGo.eq_2 acc hne] at hl
    simp at hl
    subst hl
    intro c hc
    exact hacc c (List.mem_reverse.mp hc)
  | case3 rest acc ih =>
    intro hacc l hl
    rw [splitlinesGo.eq_3] at hl
    rcases List.mem_cons.mp hl with rfl | hl
    · intro c hc
      exact hacc c (List.mem_reverse.mp hc)
    · exact ih (by simp) l hl
  | case4 c rest acc hg hbr ih =>
    intro hacc l hl
    rw [splitlinesGo.eq_4 acc c rest hg, if_pos hbr] at hl
    rcases List.mem_cons.mp hl with rfl | hl
    · intro c hc
      exact hacc c (List.mem_reverse.mp hc)
    · exact ih (by simp) l hl
  | case5 c rest acc hg hbr ih =>
    intro hacc l hl
    rw [splitlinesGo.eq_4 acc c rest hg, if_neg hbr] at hl
    refine ih ?_ l hl
    intro d hd
    rcases List.mem_cons.mp hd with rfl | hd
    · exact Bool.eq_false_iff.mpr hbr
    · exact hacc d hd

/-- Lines of splitlines contain no line-break characters. -/
theorem splitlines_noLB (s : Str) :
    ∀ l ∈ splitlines s, ∀ c ∈ l, isLineBreak c = false :=
  splitlinesGo_noLB s [] (by simp)

/-- On line-break-free input the splitlines worker yields one line. -/
theorem splitlinesGo_all : ∀ (s acc : Str),
    (∀ c ∈ s, isLineBreak c = false) → (acc ≠ [] ∨ s ≠ []) →
    splitlinesGo s acc = [acc.reverse ++ s] := by
  intro s acc
  induction s, acc using splitlinesGo.induct with
  | case1 =>
    intro _ hne
    rcases hne with h | h <;> exact absurd rfl h
  | case2 acc hne =>
    intro _ _
    rw [splitlinesGo.eq_2 acc hne]
    simp
  | case3 rest acc ih =>
    intro hs _
    have h1 := hs '\r' (by simp)
    simp [isLineBreak] at h1
  | case4 c rest acc hg hbr ih =>
    intro hs _
    have h1 := hs c (by simp)
    rw [hbr] at h1
    simp at h1
  | case5 c rest acc hg hbr ih =>
    intro hs _
    rw [splitlinesGo.eq_4 acc c rest hg, if_neg hbr]
    rw [ih (fun d hd => hs d (List.mem_cons_of_mem c hd)) (Or.inl (by simp))]
    simp

/-- splitlines of a non-empty line-break-free string is that one line. -/
theorem splitlines_single (t : Str) (h : ∀ c ∈ t, isLineBreak c = false)
    (hne : t ≠ []) : splitlines t = [t] := by
  rw [splitlines, splitlinesGo_all t [] h (Or.inr hne)]
  simp

/-- Every clean chunk is non-empty, has no two consecutive spaces, and
neither starts nor ends with whitespace. -/
theorem cleanChunks_props (s : Str) :
    ∀ p ∈ cleanChunks s, p ≠ [] ∧ noTwoSpaces p ∧
      (∀ c, p.head? = some c → isSpaceChar c = false) ∧
      (∀ c, p.getLast? = some c → isSpaceChar c = false) := by
  intro p hp
  rw [cleanChunks, List.mem_filter] at hp
  obtain ⟨hmem, hne⟩ := hp
  have hne2 : p ≠ [] := by simpa using hne
  rw [List.mem_flatMap] at hmem
  obtain ⟨line, -, hpl⟩ := hmem
  rw [List.mem_map] at hpl
  obtain ⟨phrase, hphr, rfl⟩ := hpl
  refine ⟨hne2, ?_, pyStrip_head phrase, pyStrip_last phrase⟩
  have h1 : noTwoSpaces phrase := splitDD_chain line phrase hphr
  exact List.Chain'.infix h1 ( List.IsPrefix.isInfix (pyStrip_prefixOf phrase)
    |>.trans ( List.IsSuffix.isInfix (List.dropWhile_suffix isSpaceChar)))

/-- Every character of the cleaned text is a space or comes from a line of
the input. -/
theorem cleanText_mem (s : Str) :
    ∀ c ∈ cleanText s, c = ' ' ∨ ∃ l ∈ splitlines s, c ∈ l := by
  intro c hc
  rw [cleanText] at hc
  rcases joinWith_mem [' '] (cleanChunks s) c hc with h1 | ⟨p, hp, hcp⟩
  · simp at h1
    exact Or.inl h1
  · rw [cleanChunks, List.mem_filter] at hp
    obtain ⟨hmem, -⟩ := hp
    rw [List.mem_flatMap] at hmem
    obtain ⟨line, hline, hpl⟩ := hmem
    rw [List.mem_map] at hline hpl
    obtain ⟨phrase, hphr, rfl⟩ := hpl
    obtain ⟨line0, hline0, rfl⟩ := hline
    have h2 : c ∈ phrase := (pyStrip_sublist phrase).subset hcp
    have h3 : c ∈ pyStrip line0 :=
      (splitDD_sublist (pyStrip line0) phrase hphr).subset h2
    have h4 : c ∈ line0 := (pyStrip_sublist line0).subset h3
    exact Or.inr ⟨line0, hline0, h4⟩

/-- The cleaned text contains no line-break characters. -/
theorem cleanText_noLB (s : Str) :
    ∀ c ∈ cleanText s, isLineBreak c = false := by
  intro c hc
  rcases cleanText_mem s c hc with rfl | ⟨l, hl, hcl⟩
  · decide
  · exact splitlines_noLB s l hl c hcl

/-- C6: the cleaned text produced by the extraction step has no run of two
or more consecutive space characters and no whitespace-only line; it is the
single-space join of the non-empty stripped fragments of the stripped
lines. -/
theorem clean_text_invariants (doc : List Node) (inc : Bool) (s : Str) :
    (scrapeParse doc inc).1 = cleanText (getTextList (removeBannedList doc)) ∧
    ¬ (str ("  ")) <:+: cleanText s ∧
    (∀ l ∈ splitlines (cleanText s), ∃ c ∈ l, isSpaceChar c = false) := by
  refine ⟨rfl, (noDD_iff (cleanText s)).mp
    (joinSp_chain (cleanChunks s) (cleanChunks_props s)), ?_⟩
  by_cases h0 : cleanText s = []
  · rw [h0]
    intro l hl
    simp [splitlines, splitlinesGo] at hl
  · rw [splitlines_single (cleanText s) (cleanText_noLB s) h0]
    intro l hl
    simp at hl
    subst hl
    have hcs : cleanChunks s ≠ [] := by
      intro hx
      exact h0 (by rw [cleanText, hx]; rfl)
    obtain ⟨p, ps, hps⟩ := List.exists_cons_of_ne_nil hcs
    have hp := cleanChunks_props s p (by rw [hps]; simp)
    obtain ⟨c0, hc0⟩ : ∃ c0, p.head? = some c0 := by
      cases p with
      | nil => exact absurd rfl hp.1
      | cons a as => exact ⟨a, rfl⟩
    have hhead : (cleanText s).head? = some c0 := by
      rw [cleanText, hps, joinSp_head p ps hp.1]
      exact hc0
    refine ⟨c0, List.mem_of_mem_head? (Option.mem_def.mpr hhead),
      hp.2.2.1 c0 hc0⟩

end Scraper
